import Mathlib

/-!
Verification development for the `debian-changelog` repository
(`src/lex.rs`, `src/parse.rs`, `src/changes.rs`).

The Rust sources are shallowly embedded: strings are `List Char`,
fallible or panicking paths are made explicit (`Option`, dedicated
result inductives), and the stateful lexer / recursive-descent parser
become explicit state-passing functions.  Loop fuel is instantiated
with `length + 1` bounds; every loop consumes at least one element per
iteration, so the fuel never runs out on the wrapped entry points.
-/

namespace DebianChangelog

/-- Token and node kinds, the `SyntaxKind` enum shared by lexer, parser and
tree (declared in the crate root; the set of variants is the one listed in
the spec's data model and used throughout `lex.rs` / `parse.rs`). -/
inductive SyntaxKind where
  | IDENTIFIER
  | WHITESPACE
  | NEWLINE
  | INDENT
  | VERSION
  | SEMICOLON
  | EQUALS
  | DETAIL
  | DASHES
  | EMAIL
  | TEXT
  | COMMENT
  | ERROR
  | ROOT
  | ENTRY
  | ENTRY_HEADER
  | DISTRIBUTIONS
  | METADATA
  | METADATA_ENTRY
  | METADATA_KEY
  | METADATA_VALUE
  | ENTRY_BODY
  | ENTRY_FOOTER
  | MAINTAINER
  | TIMESTAMP
  | EMPTY_LINE
  deriving DecidableEq

/-- Line regions of the stateful lexer (`enum LineType` in `lex.rs`). -/
inductive LineType where
  | Header
  | Body
  | Footer
  deriving DecidableEq

/-- `Lexer::is_whitespace` (`lex.rs:25`): space or tab. -/
def is_whitespace (c : Char) : Bool :=
  c == ' ' || c == '\t'

/-- `Lexer::is_newline` (`lex.rs:29`). -/
def is_newline (c : Char) : Bool :=
  c == '\n' || c == '\r'

/-- `Lexer::is_valid_identifier_char` (`lex.rs:33`): ASCII alphanumeric,
dash or dot. -/
def is_valid_identifier_char (c : Char) : Bool :=
  c.isAlphanum || c == '-' || c == '.'

/-- `Lexer::read_while` (`lex.rs:37`): the consumed run and the rest of
the input. -/
def read_while (p : Char → Bool) (l : List Char) : List Char × List Char :=
  (l.takeWhile p, l.dropWhile p)

/-- `Lexer::read_while_n` (`lex.rs:53`): like `read_while` but stops once
`n` characters have been consumed (the character that reaches the bound is
still consumed). -/
def read_while_n (p : Char → Bool) : Nat → List Char → List Char × List Char
  | _, [] => ([], [])
  | n, c :: rest =>
    if p c then
      if n ≤ 1 then ([c], rest)
      else
        let r := read_while_n p (n - 1) rest
        (c :: r.1, r.2)
    else ([], c :: rest)

/-- Result of one `Lexer::next_token` step: end of input, the
`unreachable!()` panic (`lex.rs:86`), or a token together with the new
line region and the remaining input. -/
inductive LexStep where
  | eof
  | panicked
  | tok (k : SyntaxKind) (text : List Char) (lt : Option LineType) (rest : List Char)

/-- `Lexer::next_token` (`lex.rs:73`), the dispatch on the peeked
character and the current line region, in the source's arm order. -/
def next_token_at (lt : Option LineType) (c : Char) (rest : List Char) : LexStep :=
  if (lt = none ∨ lt = some .Header) ∧ is_valid_identifier_char c then
    let r := read_while is_valid_identifier_char (c :: rest)
    .tok .IDENTIFIER r.1 (some .Header) r.2
  else if lt = none ∧ is_whitespace c then
    let r := read_while_n (fun d => d == ' ') 2 (c :: rest)
    match r.1.length with
    | 2 => .tok .INDENT r.1 (some .Body) r.2
    | 1 => .tok .INDENT r.1 (some .Footer) r.2
    | _ => .panicked
  else if is_newline c then
    .tok .NEWLINE [c] none rest
  else if c = ';' ∧ lt = some .Header then
    .tok .SEMICOLON [c] lt rest
  else if c = '(' ∧ lt = some .Header then
    let r := read_while
      (fun d => d != ')' && d != ';' && d != ' ' && !is_newline d) (c :: rest)
    match r.2 with
    | ')' :: rest2 => .tok .VERSION (r.1 ++ [')']) lt rest2
    | n :: rest2 => .tok .ERROR (r.1 ++ [n]) lt rest2
    | [] => .tok .ERROR r.1 lt []
  else if c = '=' ∧ lt = some .Header then
    .tok .EQUALS [c] lt rest
  else if lt = some .Body then
    let r := read_while (fun d => !is_newline d) (c :: rest)
    .tok .DETAIL r.1 lt r.2
  else if is_whitespace c then
    let r := read_while is_whitespace (c :: rest)
    .tok .WHITESPACE r.1 lt r.2
  else if c = '-' ∧ lt = some .Footer then
    let r := read_while (fun d => d == '-') (c :: rest)
    .tok .DASHES r.1 lt r.2
  else if c = '<' ∧ lt = some .Footer then
    let r := read_while (fun d => d != '>' && d != ' ' && !is_newline d) (c :: rest)
    match r.2 with
    | '>' :: rest2 => .tok .EMAIL r.1 lt rest2
    | _ :: rest2 => .tok .ERROR r.1 lt rest2
    | [] => .tok .ERROR r.1 lt []
  else if lt = some .Footer ∧ !is_whitespace c ∧ !is_newline c then
    let r := read_while (fun d => d != '<' && !is_newline d && d != ' ') (c :: rest)
    .tok .TEXT r.1 lt r.2
  else
    .tok .ERROR [c] lt rest

def next_token (lt : Option LineType) : List Char → LexStep
  | [] => .eof
  | c :: rest => next_token_at lt c rest

/-- Driver of the lexer iterator (`lex.rs:162`): collect tokens until end
of input.  `none` models a panic inside `next_token`.  The fuel argument
is bounded by the input length plus one; running out of fuel behaves like
end of input, which the wrapper `lex` never triggers because every emitted
token consumes at least one character. -/
def lexgo : Nat → Option LineType → List Char → Option (List (SyntaxKind × List Char))
  | 0, _, _ => some []
  | fuel + 1, lt, input =>
    match next_token lt input with
    | .eof => some []
    | .panicked => none
    | .tok k t lt' rest =>
      match lexgo fuel lt' rest with
      | some ts => some ((k, t) :: ts)
      | none => none

/-- `lex` (`lex.rs:162`): run the lexer over the whole input.  `none`
models the `unreachable!()` panic. -/
def lex (input : List Char) : Option (List (SyntaxKind × List Char)) :=
  lexgo (input.length + 1) none input

/-- Green tree (rowan `GreenNode`/`GreenToken`): a branch with a kind and
ordered children, or a leaf token with a kind and its literal text. -/
inductive GreenTree where
  | token (k : SyntaxKind) (text : List Char)
  | node (k : SyntaxKind) (children : List GreenTree)

/-- Kind of a tree element (`SyntaxNode::kind` / `SyntaxToken::kind`). -/
def GreenTree.kind : GreenTree → SyntaxKind
  | .token k _ => k
  | .node k _ => k

mutual

/-- `SyntaxNode::text`: concatenated literal text of all leaves, left to
right (the lossless serialization of the tree). -/
def GreenTree.text : GreenTree → List Char
  | .token _ t => t
  | .node _ cs => GreenTree.textList cs

/-- Text of a list of children, concatenated in order. -/
def GreenTree.textList : List GreenTree → List Char
  | [] => []
  | c :: cs => GreenTree.text c ++ GreenTree.textList cs

end

mutual

/-- Whether a kind occurs anywhere in the tree (on a leaf or a branch). -/
def GreenTree.hasKind (k : SyntaxKind) : GreenTree → Bool
  | .token k' _ => k' == k
  | .node k' cs => k' == k || GreenTree.hasKindList k cs

/-- Whether a kind occurs in any tree of the list. -/
def GreenTree.hasKindList (k : SyntaxKind) : List GreenTree → Bool
  | [] => false
  | c :: cs => GreenTree.hasKind k c || GreenTree.hasKindList k cs

end

/-- Direct children of a branch (empty for a token). -/
def GreenTree.childElems : GreenTree → List GreenTree
  | .node _ cs => cs
  | .token _ _ => []

/-- Direct child branches only, as rowan's `children()` (tokens are only
reported by `children_with_tokens()`). -/
def GreenTree.childNodes (t : GreenTree) : List GreenTree :=
  t.childElems.filter fun c =>
    match c with
    | .node _ _ => true
    | .token _ _ => false

/-- Debug name of a `SyntaxKind`, as the derived `Debug` format used in
the parser's diagnostic strings. -/
def kindName : SyntaxKind → String
  | .IDENTIFIER => "IDENTIFIER"
  | .WHITESPACE => "WHITESPACE"
  | .NEWLINE => "NEWLINE"
  | .INDENT => "INDENT"
  | .VERSION => "VERSION"
  | .SEMICOLON => "SEMICOLON"
  | .EQUALS => "EQUALS"
  | .DETAIL => "DETAIL"
  | .DASHES => "DASHES"
  | .EMAIL => "EMAIL"
  | .TEXT => "TEXT"
  | .COMMENT => "COMMENT"
  | .ERROR => "ERROR"
  | .ROOT => "ROOT"
  | .ENTRY => "ENTRY"
  | .ENTRY_HEADER => "ENTRY_HEADER"
  | .DISTRIBUTIONS => "DISTRIBUTIONS"
  | .METADATA => "METADATA"
  | .METADATA_ENTRY => "METADATA_ENTRY"
  | .METADATA_KEY => "METADATA_KEY"
  | .METADATA_VALUE => "METADATA_VALUE"
  | .ENTRY_BODY => "ENTRY_BODY"
  | .ENTRY_FOOTER => "ENTRY_FOOTER"
  | .MAINTAINER => "MAINTAINER"
  | .TIMESTAMP => "TIMESTAMP"
  | .EMPTY_LINE => "EMPTY_LINE"

/-- Debug format of an `Option SyntaxKind` value. -/
def optKindStr : Option SyntaxKind → String
  | none => "None"
  | some k => "Some(" ++ kindName k ++ ")"

/-- Parser state: the unconsumed token stream (front element is the
current token; the Rust parser keeps the vector reversed and pops from
the back) and the accumulated diagnostics. -/
structure PState where
  tokens : List (SyntaxKind × List Char)
  errors : List String

/-- `Parser::error` (`parse.rs:104`): open an ERROR branch, consume the
current token if any, record the message. -/
def pError (msg : String) (st : PState) : GreenTree × PState :=
  match st.tokens with
  | [] => (.node .ERROR [], ⟨[], st.errors ++ [msg]⟩)
  | (k, t) :: rest => (.node .ERROR [.token k t], ⟨rest, st.errors ++ [msg]⟩)

/-- `Parser::expect` (`parse.rs:329`): consume the expected kind or emit
an error node with a diagnostic. -/
def pExpect (k : SyntaxKind) (st : PState) : GreenTree × PState :=
  match st.tokens with
  | (k', t) :: rest =>
    if k' = k then (.token k' t, ⟨rest, st.errors⟩)
    else pError ("expected " ++ kindName k ++ ", got " ++ optKindStr (some k')) st
  | [] => pError ("expected " ++ kindName k ++ ", got " ++ optKindStr none) st

/-- `Parser::skip_ws` (`parse.rs:336`): bump while the current token is
WHITESPACE; returns the consumed leaves and the remaining stream. -/
def skip_ws : List (SyntaxKind × List Char) → List GreenTree × List (SyntaxKind × List Char)
  | (.WHITESPACE, t) :: rest =>
    let r := skip_ws rest
    (.token .WHITESPACE t :: r.1, r.2)
  | ts => ([], ts)

/-- Distributions loop of `Parser::parse_entry_header` (`parse.rs:122`):
skip whitespace, bump identifiers, stop at a semicolon, otherwise emit a
diagnostic and stop. -/
def distributions_loop : Nat → PState → List GreenTree × PState
  | 0, st => ([], st)
  | fuel + 1, st =>
    let w := skip_ws st.tokens
    let st1 : PState := ⟨w.2, st.errors⟩
    match st1.tokens with
    | (.IDENTIFIER, t) :: rest =>
      let r := distributions_loop fuel ⟨rest, st1.errors⟩
      (w.1 ++ (.token .IDENTIFIER t :: r.1), r.2)
    | (.SEMICOLON, _) :: _ => (w.1, st1)
    | _ =>
      let e := pError ("expected distribution or semicolon") st1
      (w.1 ++ [e.1], e.2)

/-- Metadata loop of `Parser::parse_entry_header` (`parse.rs:141`):
METADATA_ENTRY nodes `key = value`, breaking at a newline or on the first
mismatch (with a diagnostic inside the open entry node). -/
def metadata_loop : Nat → PState → List GreenTree × PState
  | 0, st => ([], st)
  | fuel + 1, st =>
    let w := skip_ws st.tokens
    let st1 : PState := ⟨w.2, st.errors⟩
    match st1.tokens with
    | (.NEWLINE, _) :: _ => (w.1, st1)
    | (.IDENTIFIER, t) :: rest =>
      let keyNode := GreenTree.node .METADATA_KEY [.token .IDENTIFIER t]
      let st2 : PState := ⟨rest, st1.errors⟩
      match st2.tokens with
      | (.EQUALS, te) :: rest2 =>
        let st3 : PState := ⟨rest2, st2.errors⟩
        match st3.tokens with
        | (.IDENTIFIER, tv) :: rest3 =>
          let valNode := GreenTree.node .METADATA_VALUE [.token .IDENTIFIER tv]
          let entry := GreenTree.node .METADATA_ENTRY [keyNode, .token .EQUALS te, valNode]
          let r := metadata_loop fuel ⟨rest3, st3.errors⟩
          (w.1 ++ (entry :: r.1), r.2)
        | _ =>
          let e := pError ("expected metadata value") st3
          (w.1 ++ [GreenTree.node .METADATA_ENTRY [keyNode, .token .EQUALS te, e.1]], e.2)
      | _ =>
        let e := pError ("expected equals") st2
        (w.1 ++ [GreenTree.node .METADATA_ENTRY [keyNode, e.1]], e.2)
    | _ =>
      let e := pError ("expected metadata key") st1
      (w.1 ++ [GreenTree.node .METADATA_ENTRY [e.1]], e.2)

/-- `Parser::parse_entry_header` (`parse.rs:113`). -/
def parse_entry_header (st : PState) : GreenTree × PState :=
  let r1 := pExpect .IDENTIFIER st
  let w1 := skip_ws r1.2.tokens
  let st1 : PState := ⟨w1.2, r1.2.errors⟩
  let r2 := pExpect .VERSION st1
  let rd := distributions_loop (r2.2.tokens.length + 1) r2.2
  let dist := GreenTree.node .DISTRIBUTIONS rd.1
  let stD := rd.2
  let m :=
    match stD.tokens with
    | (.SEMICOLON, t) :: rest =>
      let rm := metadata_loop (rest.length + 1) ⟨rest, stD.errors⟩
      (GreenTree.token .SEMICOLON t :: rm.1, rm.2)
    | (.NEWLINE, _) :: _ => (([] : List GreenTree), stD)
    | _ =>
      let e := pError ("expected semicolon or newline") stD
      ([e.1], e.2)
  let meta := GreenTree.node .METADATA m.1
  let r3 := pExpect .NEWLINE m.2
  (GreenTree.node .ENTRY_HEADER (r1.1 :: w1.1 ++ [r2.1, dist, meta, r3.1]), r3.2)

/-- `Parser::parse_entry_detail` (`parse.rs:223`). -/
def parse_entry_detail (st : PState) : GreenTree × PState :=
  let r1 := pExpect .INDENT st
  let d :=
    match r1.2.tokens with
    | (.DETAIL, t) :: rest => ([GreenTree.token .DETAIL t], (⟨rest, r1.2.errors⟩ : PState))
    | (.NEWLINE, _) :: _ => (([] : List GreenTree), r1.2)
    | _ =>
      let e := pError ("expected detail") r1.2
      ([e.1], e.2)
  let r2 := pExpect .NEWLINE d.2
  (GreenTree.node .ENTRY_BODY (r1.1 :: d.1 ++ [r2.1]), r2.2)

/-- Maintainer loop of `Parser::parse_entry_footer` (`parse.rs:256`):
bump TEXT, and WHITESPACE only when the following token is not EMAIL.
With a single remaining token the Rust `len - 2` lookup yields `None`
(release semantics). -/
def maintainer_loop : Nat → PState → List GreenTree × PState
  | 0, st => ([], st)
  | fuel + 1, st =>
    match st.tokens with
    | (.TEXT, t) :: rest =>
      let r := maintainer_loop fuel ⟨rest, st.errors⟩
      (.token .TEXT t :: r.1, r.2)
    | (.WHITESPACE, t) :: rest =>
      if (rest.head?.map Prod.fst) ≠ some .EMAIL then
        let r := maintainer_loop fuel ⟨rest, st.errors⟩
        (.token .WHITESPACE t :: r.1, r.2)
      else ([], st)
    | _ => ([], st)

/-- Timestamp loop of `Parser::parse_entry_footer` (`parse.rs:270`):
bump TEXT and WHITESPACE until anything else. -/
def timestamp_loop : Nat → PState → List GreenTree × PState
  | 0, st => ([], st)
  | fuel + 1, st =>
    match st.tokens with
    | (.TEXT, t) :: rest =>
      let r := timestamp_loop fuel ⟨rest, st.errors⟩
      (.token .TEXT t :: r.1, r.2)
    | (.WHITESPACE, t) :: rest =>
      let r := timestamp_loop fuel ⟨rest, st.errors⟩
      (.token .WHITESPACE t :: r.1, r.2)
    | _ => ([], st)

/-- `Parser::parse_entry_footer` (`parse.rs:241`). -/
def parse_entry_footer (st : PState) : GreenTree × PState :=
  let c1 :=
    match st.tokens with
    | (.INDENT, t) :: rest =>
      if t = (" -- ".data) then ([GreenTree.token .INDENT t], (⟨rest, st.errors⟩ : PState))
      else
        let e := pError ("expected --") st
        ([e.1], e.2)
    | _ =>
      let e := pError ("expected indent") st
      ([e.1], e.2)
  let rm := maintainer_loop (c1.2.tokens.length + 1) c1.2
  let maint := GreenTree.node .MAINTAINER rm.1
  let r1 := pExpect .WHITESPACE rm.2
  let r2 := pExpect .EMAIL r1.2
  let r3 := pExpect .WHITESPACE r2.2
  let rt := timestamp_loop (r3.2.tokens.length + 1) r3.2
  let tsN := GreenTree.node .TIMESTAMP rt.1
  let r4 := pExpect .NEWLINE rt.2
  (GreenTree.node .ENTRY_FOOTER (c1.1 ++ [maint, r1.1, r2.1, r3.1, tsN, r4.1]), r4.2)

/-- Body/footer loop of `Parser::parse_entry` (`parse.rs:191`): empty
lines, two-space-indented detail lines, the literal `" -- "` INDENT
starting a footer (then stop), a diagnostic at end of file, and a silent
stop on anything else. -/
def entry_loop : Nat → PState → List GreenTree × PState
  | 0, st => ([], st)
  | fuel + 1, st =>
    match st.tokens with
    | [] =>
      let e := pError ("unexpected end of file") st
      ([e.1], e.2)
    | (.NEWLINE, t) :: rest =>
      let r := entry_loop fuel ⟨rest, st.errors⟩
      (GreenTree.node .EMPTY_LINE [.token .NEWLINE t] :: r.1, r.2)
    | (.INDENT, t) :: _ =>
      if t = ("  ".data) then
        let rd := parse_entry_detail st
        let r := entry_loop fuel rd.2
        (rd.1 :: r.1, r.2)
      else if t = (" -- ".data) then
        let rf := parse_entry_footer st
        ([rf.1], rf.2)
      else ([], st)
    | _ => ([], st)

/-- `Parser::parse_entry` (`parse.rs:188`). -/
def parse_entry (st : PState) : GreenTree × PState :=
  let rh := parse_entry_header st
  let r := entry_loop (rh.2.tokens.length + 1) rh.2
  (GreenTree.node .ENTRY (rh.1 :: r.1), r.2)

/-- Root loop of `Parser::parse` (`parse.rs:284`): empty lines, COMMENT
tokens, entries starting at IDENTIFIER; any other token is wrapped in an
ERROR node with a diagnostic and the loop stops (remaining tokens are
dropped). -/
def root_loop : Nat → PState → List GreenTree × PState
  | 0, st => ([], st)
  | fuel + 1, st =>
    match st.tokens with
    | [] => ([], st)
    | (.NEWLINE, t) :: rest =>
      let r := root_loop fuel ⟨rest, st.errors⟩
      (GreenTree.node .EMPTY_LINE [.token .NEWLINE t] :: r.1, r.2)
    | (.COMMENT, t) :: rest =>
      let r := root_loop fuel ⟨rest, st.errors⟩
      (GreenTree.token .COMMENT t :: r.1, r.2)
    | (.IDENTIFIER, _) :: _ =>
      let re := parse_entry st
      let r := root_loop fuel re.2
      (re.1 :: r.1, r.2)
    | (k, _) :: _ =>
      let e := pError ("unexpected token " ++ optKindStr (some k)) st
      ([e.1], e.2)

/-- `parse` (`parse.rs:91`): lex, then run the parser; the result is the
ROOT tree and the diagnostics.  `none` propagates a lexer panic. -/
def parse (input : List Char) : Option (GreenTree × List String) :=
  (lex input).map fun toks =>
    let r := root_loop (toks.length + 1) ⟨toks, []⟩
    (GreenTree.node .ROOT r.1, r.2.errors)

/-- The tree component of a parse. -/
def parseTree (input : List Char) : Option GreenTree :=
  (parse input).map Prod.fst

/-- The diagnostics component of a parse. -/
def parse_errors (input : List Char) : Option (List String) :=
  (parse input).map Prod.snd

/-- The `Urgency` enum (`parse.rs:9`). -/
inductive Urgency where
  | Low
  | Medium
  | High
  | Emergency
  | Critical
  deriving DecidableEq

/-- `Urgency::to_string` (`parse.rs:17`): lowercased name. -/
def urgency_to_string : Urgency → List Char
  | .Low => "low".data
  | .Medium => "medium".data
  | .High => "high".data
  | .Emergency => "emergency".data
  | .Critical => "critical".data

/-- Rust `str::to_lowercase`, restricted to its ASCII case mapping (the
Unicode mappings never produce one of the five urgency words from a
string whose ASCII lowercasing does not already equal it, because none
of those words contains a character with a non-ASCII uppercase form). -/
def to_lowercase (s : List Char) : List Char :=
  s.map Char.toLower

/-- `Urgency::from_str` (`parse.rs:29`): lowercase, then match the five
recognized values; otherwise the `ParseError` with the formatted
message. -/
def urgency_from_str (s : List Char) : Except (List String) Urgency :=
  if to_lowercase s = "low".data then .ok .Low
  else if to_lowercase s = "medium".data then .ok .Medium
  else if to_lowercase s = "high".data then .ok .High
  else if to_lowercase s = "emergency".data then .ok .Emergency
  else if to_lowercase s = "critical".data then .ok .Critical
  else .error ["invalid urgency: " ++ String.mk s]

/-- `ChangeLog::entries` (`parse.rs:436`): child branches of kind ENTRY. -/
def changelog_entries (t : GreenTree) : List GreenTree :=
  t.childNodes.filter fun c => c.kind == .ENTRY

/-- `Entry::header` (`parse.rs:599`). -/
def entry_header (e : GreenTree) : Option GreenTree :=
  e.childNodes.find? fun c => c.kind == .ENTRY_HEADER

/-- `Entry::footer` (`parse.rs:603`). -/
def entry_footer (e : GreenTree) : Option GreenTree :=
  e.childNodes.find? fun c => c.kind == .ENTRY_FOOTER

/-- `EntryHeader::package` (`parse.rs:484`): the first IDENTIFIER token
among the header's direct children. -/
def header_package (h : GreenTree) : Option (List Char) :=
  h.childElems.findSome? fun c =>
    match c with
    | .token .IDENTIFIER t => some t
    | _ => none

/-- `EntryHeader::version` (`parse.rs:472`): the first VERSION token's
text with the surrounding parentheses sliced off (`[1 .. len-1]`); the
slice is handed to the external version parser, modelled as the opaque
string.  The Rust byte slice removes exactly the leading `(` and
trailing `)` on every lexer-produced VERSION token. -/
def header_version (h : GreenTree) : Option (List Char) :=
  h.childElems.findSome? fun c =>
    match c with
    | .token .VERSION t => some ((t.drop 1).take (t.length - 2))
    | _ => none

/-- `EntryHeader::distributions` (`parse.rs:495`): IDENTIFIER tokens
directly below the DISTRIBUTIONS child. -/
def header_distributions (h : GreenTree) : Option (List (List Char)) :=
  (h.childNodes.find? fun c => c.kind == .DISTRIBUTIONS).map fun n =>
    n.childElems.filterMap fun c =>
      match c with
      | .token .IDENTIFIER t => some t
      | _ => none

/-- `MetadataEntry::key` (`parse.rs:411`): text of the METADATA_KEY
child branch. -/
def metadata_key (e : GreenTree) : Option (List Char) :=
  (e.childNodes.find? fun c => c.kind == .METADATA_KEY).map GreenTree.text

/-- `MetadataEntry::value` (`parse.rs:418`): text of the METADATA_VALUE
child branch. -/
def metadata_value (e : GreenTree) : Option (List Char) :=
  (e.childNodes.find? fun c => c.kind == .METADATA_VALUE).map GreenTree.text

/-- `EntryHeader::metadata` (`parse.rs:521`): (key, value) pairs of the
METADATA_ENTRY branches below the METADATA child, in order, keeping
only entries where both parts are present. -/
def header_metadata (h : GreenTree) : List (List Char × List Char) :=
  let entries : List GreenTree :=
    match h.childNodes.find? (fun c => c.kind == .METADATA) with
    | some m => m.childNodes.filter (fun c => c.kind == .METADATA_ENTRY)
    | none => []
  entries.filterMap fun e =>
    match metadata_key e, metadata_value e with
    | some k, some v => some (k, v)
    | _, _ => none

/-- Outcome of `EntryHeader::urgency` (`parse.rs:531`): the accessor
calls `value.parse().unwrap()`, so an unrecognized value is a panic, not
an error return. -/
inductive UrgencyR where
  | found (u : Urgency)
  | absent
  | panicked
  deriving DecidableEq

/-- `EntryHeader::urgency` (`parse.rs:531`): first metadata pair with key
`urgency`; its value is parsed and unwrapped (panicking on failure). -/
def header_urgency (h : GreenTree) : UrgencyR :=
  match (header_metadata h).find? fun kv => kv.1 = "urgency".data with
  | some kv =>
    match urgency_from_str kv.2 with
    | .ok u => .found u
    | .error _ => .panicked
  | none => .absent

/-- `Entry::package` (`parse.rs:607`). -/
def entry_package (e : GreenTree) : Option (List Char) :=
  (entry_header e).bind header_package

/-- `Entry::version` (`parse.rs:611`). -/
def entry_version (e : GreenTree) : Option (List Char) :=
  (entry_header e).bind header_version

/-- `Entry::distributions` (`parse.rs:615`). -/
def entry_distributions (e : GreenTree) : Option (List (List Char)) :=
  (entry_header e).bind header_distributions

/-- `Entry::urgency` (`parse.rs:639`): absent when there is no header. -/
def entry_urgency (e : GreenTree) : UrgencyR :=
  match entry_header e with
  | some h => header_urgency h
  | none => .absent

/-- `EntryFooter::maintainer` (`parse.rs:554`): text of the MAINTAINER
child branch. -/
def entry_maintainer (e : GreenTree) : Option (List Char) :=
  (entry_footer e).bind fun f =>
    (f.childNodes.find? fun c => c.kind == .MAINTAINER).map GreenTree.text

/-- `EntryFooter::email` (`parse.rs:542`): the first EMAIL token among
the footer's direct children, with the `< >` sliced off. -/
def entry_email (e : GreenTree) : Option (List Char) :=
  (entry_footer e).bind fun f =>
    f.childElems.findSome? fun c =>
      match c with
      | .token .EMAIL t => some ((t.drop 1).take (t.length - 2))
      | _ => none

/-- `EntryFooter::timestamp` (`parse.rs:561`): text of the TIMESTAMP
child branch. -/
def entry_timestamp (e : GreenTree) : Option (List Char) :=
  (entry_footer e).bind fun f =>
    (f.childNodes.find? fun c => c.kind == .TIMESTAMP).map GreenTree.text

/-- `EntryBody::text` (`parse.rs:570`): concatenated DETAIL tokens. -/
def body_text (n : GreenTree) : List Char :=
  (n.childElems.filterMap fun c =>
    match c with
    | .token .DETAIL t => some t
    | _ => none).flatten

/-- `Entry::change_lines` (`parse.rs:643`): one string per ENTRY_BODY
child and the empty string per EMPTY_LINE child, in order. -/
def entry_change_lines (e : GreenTree) : List (List Char) :=
  e.childNodes.filterMap fun n =>
    if n.kind == .ENTRY_BODY then some (body_text n)
    else if n.kind == .EMPTY_LINE then some []
    else none

/-- First entry of a parsed input, through the `ChangeLog` view. -/
def first_entry (input : List Char) : Option GreenTree :=
  (parseTree input).bind fun t => (changelog_entries t).head?

/-- `ChangeLog::from_str` (`parse.rs:458`): the strict entry point, an
error carrying the diagnostics when any were produced.  The outer
`Option` propagates a lexer panic. -/
def changelog_from_str (s : List Char) : Option (Except (List String) GreenTree) :=
  (parse s).map fun r => if r.2 = [] then .ok r.1 else .error r.2

/-- Outcome of `ChangeLog::read` (`parse.rs:445`) on a given text, I/O
aside: the view on success, a failure carrying diagnostics, or a panic.
The `err` form is what the spec's `parse_strict` delegation describes;
the implementation can only produce `ok` or `panicked` because it
unwraps the `FromStr` result. -/
inductive ReadOutcome where
  | ok (t : GreenTree)
  | err (diags : List String)
  | panicked

/-- `ChangeLog::read` (`parse.rs:445`) applied to the text read from the
reader: `buf.parse().unwrap()`, so a strict-parse failure panics. -/
def changelog_read (s : List Char) : ReadOutcome :=
  match changelog_from_str s with
  | none => .panicked
  | some (.ok t) => .ok t
  | some (.error _) => .panicked

/-- Rust `char::is_whitespace`, restricted to the ASCII members of the
Unicode `White_Space` class (the inputs handled in this development are
ASCII-whitespace only; every lemma below is insensitive to the exact
membership list). -/
def is_rust_ws (c : Char) : Bool :=
  c == ' ' || c == '\t' || c == '\n' || c == '\r' ||
    c == Char.ofNat 11 || c == Char.ofNat 12

/-- `line.trim().is_empty()` (`changes.rs:179`). -/
def line_is_blank (l : List Char) : Bool :=
  l.all is_rust_ws

/-- Trailing-blank-line removal loop of `strip_for_commit_message`
(`changes.rs:178`). -/
def drop_trailing_blank (xs : List (List Char)) : List (List Char) :=
  (xs.reverse.dropWhile line_is_blank).reverse

/-- Leading-blank-line removal loop of `strip_for_commit_message`
(`changes.rs:186`). -/
def drop_leading_blank (xs : List (List Char)) : List (List Char) :=
  xs.dropWhile line_is_blank

/-- Indentation loop of `strip_for_commit_message` (`changes.rs:196`):
repeatedly strip a two-space prefix or a single tab. -/
def remove_indent : List Char → List Char
  | ' ' :: ' ' :: rest => remove_indent rest
  | '\t' :: rest => remove_indent rest
  | l => l

/-- `line.trim_start()` (`changes.rs:211`). -/
def trim_start (l : List Char) : List Char :=
  l.dropWhile is_rust_ws

/-- `starts_with("* ") || starts_with("+ ") || starts_with("- ")`
(`changes.rs:212`). -/
def has_bullet : List Char → Bool
  | '*' :: ' ' :: _ => true
  | '+' :: ' ' :: _ => true
  | '-' :: ' ' :: _ => true
  | _ => false

/-- Bullet-dropping map of `strip_for_commit_message` (`changes.rs:210`):
trim the start; when a bullet follows, drop the bullet character
(`line[1..]`) and trim again. -/
def drop_bullet (l : List Char) : List Char :=
  let t := trim_start l
  if has_bullet t then trim_start (t.drop 1) else t

/-- `strip_for_commit_message` (`changes.rs:174`). -/
def strip_for_commit_message (changes : List (List Char)) : List (List Char) :=
  if changes.isEmpty then []
  else
    let c1 := drop_leading_blank (drop_trailing_blank changes)
    let c2 := c1.map remove_indent
    let bpd := c2.map drop_bullet
    if bpd.length = 1 then bpd else c2

/-- A section of a changelog entry (`struct Section`, `changes.rs:16`). -/
structure Section where
  title : Option (List Char)
  linenos : List Nat
  changes : List (List (Nat × List Char))
  deriving DecidableEq

/-- Match of the author sub-header regex `^\[ (.*) \]$`
(`changes.rs:54`): the line is `[ <title> ]` with the greedy capture in
between (`.` excludes a newline), returning the capture. -/
def section_title (line : List Char) : Option (List Char) :=
  if 4 ≤ line.length ∧ line.take 2 = ['[', ' '] ∧
      line.drop (line.length - 2) = [' ', ']'] ∧
      ('\n' ∉ (line.drop 2).take (line.length - 4)) then
    some ((line.drop 2).take (line.length - 4))
  else none

/-- `line.starts_with("* ")` (`changes.rs:67`). -/
def has_star_space : List Char → Bool
  | '*' :: ' ' :: _ => true
  | _ => false

/-- Loop body of `changes_sections` (`changes.rs:43`), with the running
result list, current section and current change group as state. -/
def changes_sections_go (i : Nat) (lines : List (List Char))
    (ret : List Section) (sec : Section) (change : List (Nat × List Char)) : List Section :=
  match lines with
  | [] =>
    let sec1 := if change ≠ [] then { sec with changes := sec.changes ++ [change] } else sec
    if sec1.linenos ≠ [] then ret ++ [sec1] else ret
  | line :: rest =>
    if line = [] ∧ i = 0 then
      changes_sections_go (i + 1) rest ret sec change
    else if line = [] then
      changes_sections_go (i + 1) rest ret { sec with linenos := sec.linenos ++ [i] } change
    else
      match section_title line with
      | some author =>
        let sec1 := if change ≠ [] then { sec with changes := sec.changes ++ [change] } else sec
        let ret1 := if sec1.linenos ≠ [] then ret ++ [sec1] else ret
        changes_sections_go (i + 1) rest ret1 ⟨some author, [i], []⟩ []
      | none =>
        if ¬ (has_star_space line) then
          changes_sections_go (i + 1) rest ret
            { sec with linenos := sec.linenos ++ [i] } (change ++ [(i, line)])
        else
          let sec1 := if change ≠ [] then { sec with changes := sec.changes ++ [change] } else sec
          changes_sections_go (i + 1) rest ret
            { sec1 with linenos := sec1.linenos ++ [i] } [(i, line)]

/-- `changes_sections` (`changes.rs:36`). -/
def changes_sections (lines : List (List Char)) : List Section :=
  changes_sections_go 0 lines [] ⟨none, [], []⟩ []

/-- The well-formed single-entry changelog of the spec's scenario 2 (also
the first entry of the parser's own `test_parse_simple` fixture). -/
def scenario2 : List Char :=
  ("breezy (3.3.4-1) unstable; urgency=low\n\n  * New upstream release.\n\n -- Jelmer Vernooĳ <jelmer@debian.org>  Mon, 04 Sep 2023 18:13:45 -0500\n").data

/-- Scenario 3: scenario 2 followed by a blank line and a comment line. -/
def scenario3 : List Char :=
  scenario2 ++ ("\n# Oh, and here is a comment\n").data

/-- Scenario 4 input: a well-formed header whose urgency value is not one
of the five recognized values. -/
def scenario4 : List Char :=
  ("foo (1.0-1) unstable; urgency=bogus\n").data

/-! ## Theorems -/

set_option maxRecDepth 100000

/-- Claim C1: for every input `s`, `parse(s).tree.text() == s`, even with
diagnostics.  The code violates this (and its own round-trip test): at the
input `;;` the root loop wraps the first ERROR token, records a diagnostic
and then breaks, dropping the second token, so the tree serializes to `;`.
This theorem evaluates the embedded code at the failing input. -/
theorem c1_lossless_fails_at_double_semicolon :
    (parseTree (";;".data)).map GreenTree.text = some (";".data) ∧
      (";".data : List Char) ≠ ";;".data := by
  decide

/-- Claim C2: scenario 2 parses to one entry with all header, body and
footer accessors populated.  The code violates the footer part (and its
own `test_parse_simple`): the lexer emits `INDENT " "` + `DASHES` for the
footer line, never the `INDENT " -- "` the parser requires, so the footer
never parses — maintainer, email and timestamp are absent and a diagnostic
is recorded, while package, version, distributions, urgency and
change_lines do match the claim.  This theorem evaluates the embedded code
at the scenario input. -/
theorem c2_scenario2_footer_never_parses :
    parse_errors scenario2 = some ["unexpected token Some(INDENT)"] ∧
      ((parseTree scenario2).map fun t => (changelog_entries t).length) = some 1 ∧
      (first_entry scenario2).map entry_package = some (some ("breezy".data)) ∧
      (first_entry scenario2).map entry_version = some (some ("3.3.4-1".data)) ∧
      (first_entry scenario2).map entry_distributions = some (some [("unstable".data)]) ∧
      (first_entry scenario2).map entry_urgency = some (.found .Low) ∧
      (first_entry scenario2).map entry_change_lines
        = some [[], "* New upstream release.".data, []] ∧
      (first_entry scenario2).map entry_maintainer = some none ∧
      (first_entry scenario2).map entry_email = some none ∧
      (first_entry scenario2).map entry_timestamp = some none := by
  decide

/-- Claim C3: the lexer consumes every input and always makes progress,
never panicking whatever character starts a line.  The code violates this:
a line starting with a tab reaches `read_while_n(2, c == ' ')`, which
consumes nothing, and the `match` on the indent length hits
`unreachable!()` — a panic, modelled as `none`. -/
theorem c3_lexer_panics_on_tab : lex ("\t".data) = none := by
  decide

/-- Claim C4: a `#` line at root level becomes a COMMENT token with zero
diagnostics.  The code violates this (and its own `test_parse_simple`):
the lexer has no rule for `#`, which becomes a one-character ERROR token;
at the scenario-3 input the root loop therefore records a diagnostic at
the footer line and stops, and no COMMENT token exists anywhere in the
tree. -/
theorem c4_comment_is_never_lexed :
    ((parseTree scenario3).map fun t => GreenTree.hasKind .COMMENT t) = some false ∧
      ((parseTree scenario3).map fun t => t.childElems.map GreenTree.kind)
        = some [.ENTRY, .ERROR] ∧
      parse_errors scenario3 = some ["unexpected token Some(INDENT)"] := by
  decide

/-- Claim C5 counterexample: the claim says `entry.urgency()` does not
crash on `urgency=bogus`; evaluating the embedded accessor at scenario 4
shows the `unwrap` of the failed urgency sub-parse, i.e. a panic. -/
theorem c5_urgency_accessor_panics :
    (first_entry scenario4).map entry_urgency = some .panicked ∧
      (parseTree scenario4).isSome = true := by
  decide

/-- Claim C5 as amended: the tree still parses, with the metadata entry
`urgency=bogus` present in the header, and the urgency sub-parser's
failure is not surfaced — `entry.urgency()` unwraps it and panics. -/
theorem c5_amended_urgency_panic :
    ((first_entry scenario4).bind fun e => (entry_header e).map header_metadata)
        = some [("urgency".data, "bogus".data)] ∧
      urgency_from_str ("bogus".data) = .error ["invalid urgency: bogus"] ∧
      (first_entry scenario4).map entry_urgency = some .panicked :=
  ⟨by decide, rfl, by decide⟩

/-- Claim C7: the author-section splitter on the eight given lines yields
exactly the two sections of the claim (this matches the code's own
`test_with_header`). -/
theorem c7_two_author_sections :
    changes_sections
        [[], "[ Author 1 ]".data, "* Change 1".data, [],
          "[ Author 2 ]".data, "* Change 2".data, "  rest".data, []]
      = [⟨some ("Author 1".data), [1, 2, 3], [[(2, "* Change 1".data)]]⟩,
          ⟨some ("Author 2".data), [4, 5, 6, 7],
            [[(5, "* Change 2".data), (6, "  rest".data)]]⟩] := by
  decide

/-- Claim C8 counterexample: the claim says the read path fails with the
accumulated diagnostics when any were produced; the implementation
unwraps the strict-parse result, so at the input `;` (which produces one
diagnostic) `ChangeLog::read` panics instead of failing with them. -/
theorem c8_read_panics_on_diagnostics :
    parse_errors (";".data) = some ["unexpected token Some(ERROR)"] ∧
      changelog_read (";".data) = ReadOutcome.panicked ∧
      changelog_read (";".data) ≠ ReadOutcome.err ["unexpected token Some(ERROR)"] :=
  ⟨by decide, rfl, fun h => ReadOutcome.noConfusion h⟩

/-- Claim C8 as amended: for every text, `ChangeLog::read` returns the
view of the parsed tree when no diagnostic is produced, and panics
(`buf.parse().unwrap()`) when diagnostics are produced — it never returns
them. -/
theorem c8_amended_read_ok_or_panic :
    ∀ (s : List Char) (tr : GreenTree) (errs : List String),
      parse s = some (tr, errs) →
      (errs = [] → changelog_read s = .ok tr) ∧
      (errs ≠ [] → changelog_read s = .panicked) := by
  intro s tr errs h
  unfold changelog_read changelog_from_str
  rw [h]
  by_cases he : errs = []
  · subst he
    simp
  · simp [he]

/-- Witness for C8: the empty text parses without diagnostics and `read`
returns the empty root. -/
theorem c8_amended_read_ok_or_panic_witness :
    changelog_read [] = ReadOutcome.ok (GreenTree.node .ROOT []) :=
  (c8_amended_read_ok_or_panic [] (GreenTree.node .ROOT []) [] rfl).1 rfl

/-- Claim C9: `Urgency::from_str` succeeds exactly on the five recognized
values compared case-insensitively, returning the corresponding variant,
fails with the formatted error on every other string, and `to_string`
renders each variant as its lowercase name. -/
theorem c9_urgency_from_str_to_string :
    (∀ (s : List Char) (u : Urgency),
        urgency_from_str s = .ok u ↔ to_lowercase s = urgency_to_string u)
    ∧ (∀ s : List Char, (∀ u : Urgency, to_lowercase s ≠ urgency_to_string u) →
        urgency_from_str s = .error ["invalid urgency: " ++ String.mk s])
    ∧ urgency_to_string .Low = "low".data
    ∧ urgency_to_string .Medium = "medium".data
    ∧ urgency_to_string .High = "high".data
    ∧ urgency_to_string .Emergency = "emergency".data
    ∧ urgency_to_string .Critical = "critical".data := by
  refine ⟨?_, ?_, rfl, rfl, rfl, rfl, rfl⟩
  · intro s u
    constructor
    · intro h
      unfold urgency_from_str at h
      split_ifs at h with h1 h2 h3 h4 h5 <;>
        cases h <;> assumption
    · intro h
      unfold urgency_from_str
      split_ifs with h1 h2 h3 h4 h5
      · cases u <;> first
          | rfl
          | (rw [h1] at h; exact absurd h (by decide))
      · cases u <;> first
          | rfl
          | (rw [h2] at h; exact absurd h (by decide))
      · cases u <;> first
          | rfl
          | (rw [h3] at h; exact absurd h (by decide))
      · cases u <;> first
          | rfl
          | (rw [h4] at h; exact absurd h (by decide))
      · cases u <;> first
          | rfl
          | (rw [h5] at h; exact absurd h (by decide))
      · cases u
        · exact absurd h h1
        · exact absurd h h2
        · exact absurd h h3
        · exact absurd h h4
        · exact absurd h h5
  · intro s h
    unfold urgency_from_str
    split_ifs with h1 h2 h3 h4 h5
    · exact absurd h1 (h .Low)
    · exact absurd h2 (h .Medium)
    · exact absurd h3 (h .High)
    · exact absurd h4 (h .Emergency)
    · exact absurd h5 (h .Critical)
    · rfl

/-- Witness for C9: the case-insensitive parse of `LOW`. -/
theorem c9_urgency_witness : urgency_from_str ("LOW".data) = .ok .Low :=
  (c9_urgency_from_str_to_string.1 ("LOW".data) .Low).mpr (by decide)

set_option maxHeartbeats 1000000 in
/-- A single `next_token` step only emits a VERSION token whose text is
the opening parenthesis, a middle run, and the consumed closing
parenthesis. -/
theorem next_token_version_shape (lt : Option LineType) (input : List Char)
    (t : List Char) (lt' : Option LineType) (rest : List Char)
    (h : next_token lt input = .tok .VERSION t lt' rest) :
    ∃ mid, t = '(' :: (mid ++ [')']) := by
  cases input with
  | nil => exact absurd h (by simp [next_token])
  | cons c cs =>
    have h2 : next_token_at lt c cs = .tok .VERSION t lt' rest := h
    unfold next_token_at at h2
    by_cases hA : (lt = none ∨ lt = some LineType.Header) ∧ is_valid_identifier_char c = true
    · rw [if_pos hA] at h2
      injection h2 with hk ht hl hr
      exact SyntaxKind.noConfusion hk
    rw [if_neg hA] at h2
    by_cases hB : lt = none ∧ is_whitespace c = true
    · rw [if_pos hB] at h2
      simp only [] at h2
      split at h2
      · injection h2 with hk ht hl hr
        exact SyntaxKind.noConfusion hk
      · injection h2 with hk ht hl hr
        exact SyntaxKind.noConfusion hk
      · exact LexStep.noConfusion h2
    rw [if_neg hB] at h2
    by_cases hC : is_newline c = true
    · rw [if_pos hC] at h2
      injection h2 with hk ht hl hr
      exact SyntaxKind.noConfusion hk
    rw [if_neg hC] at h2
    by_cases hD : c = ';' ∧ lt = some LineType.Header
    · rw [if_pos hD] at h2
      injection h2 with hk ht hl hr
      exact SyntaxKind.noConfusion hk
    rw [if_neg hD] at h2
    by_cases hE : c = '(' ∧ lt = some LineType.Header
    · rw [if_pos hE] at h2
      obtain ⟨hc, -⟩ := hE
      subst hc
      simp only [] at h2
      split at h2
      · injection h2 with hk ht hl hr
        refine ⟨cs.takeWhile (fun d => d != ')' && d != ';' && d != ' ' && !is_newline d),
          ht.symm.trans ?_⟩
        have hrw : (read_while (fun d => d != ')' && d != ';' && d != ' ' && !is_newline d)
              ('(' :: cs)).1
            = '(' :: cs.takeWhile (fun d => d != ')' && d != ';' && d != ' ' && !is_newline d) := by
          simp only [read_while]
          exact List.takeWhile_cons_of_pos (by decide)
        rw [hrw]
        simp
      · injection h2 with hk ht hl hr
        exact SyntaxKind.noConfusion hk
      · injection h2 with hk ht hl hr
        exact SyntaxKind.noConfusion hk
    rw [if_neg hE] at h2
    by_cases hF : c = '=' ∧ lt = some LineType.Header
    · rw [if_pos hF] at h2
      injection h2 with hk ht hl hr
      exact SyntaxKind.noConfusion hk
    rw [if_neg hF] at h2
    by_cases hG : lt = some LineType.Body
    · rw [if_pos hG] at h2
      injection h2 with hk ht hl hr
      exact SyntaxKind.noConfusion hk
    rw [if_neg hG] at h2
    by_cases hH : is_whitespace c = true
    · rw [if_pos hH] at h2
      injection h2 with hk ht hl hr
      exact SyntaxKind.noConfusion hk
    rw [if_neg hH] at h2
    by_cases hI : c = '-' ∧ lt = some LineType.Footer
    · rw [if_pos hI] at h2
      injection h2 with hk ht hl hr
      exact SyntaxKind.noConfusion hk
    rw [if_neg hI] at h2
    by_cases hJ : c = '<' ∧ lt = some LineType.Footer
    · rw [if_pos hJ] at h2
      simp only [] at h2
      split at h2
      · injection h2 with hk ht hl hr
        exact SyntaxKind.noConfusion hk
      · injection h2 with hk ht hl hr
        exact SyntaxKind.noConfusion hk
      · injection h2 with hk ht hl hr
        exact SyntaxKind.noConfusion hk
    rw [if_neg hJ] at h2
    by_cases hK : lt = some LineType.Footer ∧ (!is_whitespace c) = true ∧ (!is_newline c) = true
    · rw [if_pos hK] at h2
      injection h2 with hk ht hl hr
      exact SyntaxKind.noConfusion hk
    rw [if_neg hK] at h2
    injection h2 with hk ht hl hr
    exact SyntaxKind.noConfusion hk


/-- Every VERSION token in a lexed token list has the wrapped-parenthesis
shape, by induction over the lexer driver. -/
theorem lexgo_version_shape :
    ∀ (fuel : Nat) (lt : Option LineType) (input : List Char)
      (toks : List (SyntaxKind × List Char)),
      lexgo fuel lt input = some toks →
      ∀ p ∈ toks, p.1 = SyntaxKind.VERSION → ∃ mid, p.2 = '(' :: (mid ++ [')']) := by
  intro fuel
  induction fuel with
  | zero =>
    intro lt input toks h p hp _
    simp only [lexgo, Option.some.injEq] at h
    subst h
    cases hp
  | succ n ih =>
    intro lt input toks h p hp hver
    unfold lexgo at h
    cases hnt : next_token lt input with
    | eof =>
      rw [hnt] at h
      simp only [Option.some.injEq] at h
      subst h
      cases hp
    | panicked =>
      rw [hnt] at h
      exact Option.noConfusion h
    | tok k t lt' rest =>
      rw [hnt] at h
      simp only [] at h
      cases hrec : lexgo n lt' rest with
      | none =>
        rw [hrec] at h
        exact Option.noConfusion h
      | some ts =>
        rw [hrec] at h
        simp only [Option.some.injEq] at h
        subst h
        rcases List.mem_cons.mp hp with rfl | hmem
        · exact next_token_version_shape lt input t lt' rest (hver ▸ hnt)
        · exact ih lt' rest ts hrec p hmem hver

/-- Claim C10: every token the lexer emits with kind VERSION has text
beginning with `(` and ending with `)`, of length at least two, so the
version accessor's `[1 .. len-1]` slice is in range on lexer-produced
trees. -/
theorem c10_version_tokens_parenthesized :
    ∀ (input : List Char) (toks : List (SyntaxKind × List Char))
      (k : SyntaxKind) (t : List Char),
      lex input = some toks → (k, t) ∈ toks → k = SyntaxKind.VERSION →
      t.head? = some '(' ∧ t.getLast? = some ')' ∧ 2 ≤ t.length := by
  intro input toks k t hlex hmem hk
  obtain ⟨mid, hm⟩ := lexgo_version_shape _ _ _ _ hlex (k, t) hmem hk
  subst hm
  refine ⟨rfl, ?_, ?_⟩
  · rw [show ('(' :: (mid ++ [')'])) = ('(' :: mid) ++ [')'] from by simp]
    exact List.getLast?_concat _
  · simp

/-- Witness for C10: the VERSION token lexed from `x(1)`. -/
theorem c10_version_tokens_parenthesized_witness :
    (['(', '1', ')'] : List Char).head? = some '(' ∧
      (['(', '1', ')'] : List Char).getLast? = some ')' ∧
      2 ≤ (['(', '1', ')'] : List Char).length :=
  c10_version_tokens_parenthesized ("x(1)".data)
    [(.IDENTIFIER, ['x']), (.VERSION, ['(', '1', ')'])] .VERSION ['(', '1', ')']
    (by decide) (by decide) rfl


/-- The length of `dropWhile` never exceeds the input length. -/
theorem length_dropWhile_le {α : Type} (p : α → Bool) :
    ∀ l : List α, (l.dropWhile p).length ≤ l.length := by
  intro l
  induction l with
  | nil => simp
  | cons a l ih =>
    rw [List.dropWhile_cons]
    by_cases ha : p a = true
    · rw [if_pos ha]
      exact Nat.le_succ_of_le ih
    · rw [if_neg ha]

/-- The head of a `dropWhile` result fails the predicate. -/
theorem dropWhile_head_false {α : Type} {p : α → Bool} :
    ∀ {l : List α} {c : α} {tl : List α}, l.dropWhile p = c :: tl → p c = false := by
  intro l
  induction l with
  | nil => intro c tl h; cases h
  | cons a l ih =>
    intro c tl h
    rw [List.dropWhile_cons] at h
    by_cases ha : p a = true
    · rw [if_pos ha] at h
      exact ih h
    · rw [if_neg ha] at h
      cases h
      simpa using ha

/-- One-step equation of the indent loop on a two-space prefix. -/
theorem remove_indent_two_space (rest : List Char) :
    remove_indent (' ' :: ' ' :: rest) = remove_indent rest := rfl

/-- One-step equation of the indent loop on a tab prefix. -/
theorem remove_indent_tab (rest : List Char) :
    remove_indent ('\t' :: rest) = remove_indent rest := rfl

/-- The indent loop leaves a line that has neither prefix unchanged. -/
theorem remove_indent_default (l : List Char)
    (h1 : ∀ rest, l ≠ ' ' :: ' ' :: rest) (h2 : ∀ rest, l ≠ '\t' :: rest) :
    remove_indent l = l := by
  unfold remove_indent
  split
  · exact absurd rfl (h1 _)
  · exact absurd rfl (h2 _)
  · rfl

/-- Stripping indentation does not change whether a line is blank. -/
theorem blank_remove_indent : ∀ l, line_is_blank (remove_indent l) = line_is_blank l := by
  intro l
  induction l using remove_indent.induct with
  | case1 rest ih =>
    rw [remove_indent_two_space]
    rw [ih]
    simp [line_is_blank, is_rust_ws]
  | case2 rest ih =>
    rw [remove_indent_tab]
    rw [ih]
    simp [line_is_blank, is_rust_ws]
  | case3 l h1 h2 =>
    rw [remove_indent_default l (fun r hr => h1 r hr) (fun r hr => h2 r hr)]

/-- The indent loop is idempotent. -/
theorem remove_indent_idem : ∀ l, remove_indent (remove_indent l) = remove_indent l := by
  intro l
  induction l using remove_indent.induct with
  | case1 rest ih =>
    rw [remove_indent_two_space]
    exact ih
  | case2 rest ih =>
    rw [remove_indent_tab]
    exact ih
  | case3 l h1 h2 =>
    rw [remove_indent_default l (fun r hr => h1 r hr) (fun r hr => h2 r hr),
      remove_indent_default l (fun r hr => h1 r hr) (fun r hr => h2 r hr)]

/-- The indent loop leaves a line whose head is not whitespace unchanged. -/
theorem remove_indent_of_head_not_ws {c : Char} (tl : List Char)
    (h : is_rust_ws c = false) : remove_indent (c :: tl) = c :: tl := by
  refine remove_indent_default _ (fun rest hr => ?_) (fun rest hr => ?_)
  · cases hr
    simp [is_rust_ws] at h
  · cases hr
    simp [is_rust_ws] at h

/-- A bulleted line has at least the bullet and the following space. -/
theorem has_bullet_length {t : List Char} (h : has_bullet t = true) : 2 ≤ t.length := by
  match t with
  | [] => simp [has_bullet] at h
  | [a] => simp [has_bullet] at h
  | a :: b :: t' => simp

/-- A line fixed by the bullet-dropping map is already trimmed and
carries no bullet. -/
theorem trim_fix_of_drop_bullet_fix {b : List Char} (_hne : b ≠ [])
    (hfix : drop_bullet b = b) : trim_start b = b ∧ has_bullet b = false := by
  by_cases hbl : has_bullet (trim_start b) = true
  · exfalso
    have hlen1 : (trim_start b).length ≤ b.length := length_dropWhile_le _ b
    have hlen2 : 2 ≤ (trim_start b).length := has_bullet_length hbl
    have hdb : drop_bullet b = trim_start ((trim_start b).drop 1) := by
      unfold DebianChangelog.drop_bullet
      rw [if_pos hbl]
    have hlen3 : (trim_start ((trim_start b).drop 1)).length ≤ ((trim_start b).drop 1).length :=
      length_dropWhile_le _ _
    have hlen4 : ((trim_start b).drop 1).length = (trim_start b).length - 1 :=
      List.length_drop 1 _
    have hlen5 : (drop_bullet b).length = b.length := by rw [hfix]
    rw [hdb] at hlen5
    omega
  · have hbl' : has_bullet (trim_start b) = false := by
      simpa using hbl
    have hdb : drop_bullet b = trim_start b := by
      unfold DebianChangelog.drop_bullet
      rw [if_neg (by simp [hbl'])]
    have hts : trim_start b = b := by rw [← hdb, hfix]
    refine ⟨hts, ?_⟩
    rw [← hts]
    exact hbl'

/-- A nonempty line fixed by `trim_start` starts with a non-whitespace
character. -/
theorem head_not_ws_of_trim_self {b : List Char} (hts : trim_start b = b)
    (hne : b ≠ []) : ∃ c tl, b = c :: tl ∧ is_rust_ws c = false := by
  match b with
  | [] => exact absurd rfl hne
  | c :: tl =>
    refine ⟨c, tl, rfl, ?_⟩
    by_cases hc : is_rust_ws c = true
    · exfalso
      have : trim_start (c :: tl) = trim_start tl := by
        unfold DebianChangelog.trim_start
        rw [List.dropWhile_cons, if_pos hc]
      rw [this] at hts
      have := length_dropWhile_le is_rust_ws tl
      rw [show trim_start tl = tl.dropWhile is_rust_ws from rfl] at hts
      have h2 : (tl.dropWhile is_rust_ws).length = (c :: tl).length := by rw [hts]
      simp at h2
      omega
    · simpa using hc

/-- A line with a non-whitespace head is not blank. -/
theorem line_is_blank_cons_false {c : Char} (tl : List Char)
    (h : is_rust_ws c = false) : line_is_blank (c :: tl) = false := by
  simp [line_is_blank, h]

/-- The leading-blank loop leaves a list with a non-blank head unchanged. -/
theorem drop_leading_eq_self {r : List (List Char)}
    (h : ∀ a tl0, r = a :: tl0 → line_is_blank a = false) :
    drop_leading_blank r = r := by
  match r with
  | [] => rfl
  | a :: tl0 =>
    unfold DebianChangelog.drop_leading_blank
    rw [List.dropWhile_cons, if_neg (by simp [h a tl0 rfl])]

/-- The trailing-blank loop leaves a list with a non-blank last line
unchanged. -/
theorem drop_trailing_eq_self {r : List (List Char)}
    (h : ∀ a tl0, r.reverse = a :: tl0 → line_is_blank a = false) :
    drop_trailing_blank r = r := by
  unfold DebianChangelog.drop_trailing_blank
  cases hr : r.reverse with
  | nil =>
    rw [List.dropWhile_nil]
    rw [List.reverse_eq_nil_iff.mp hr]
    rfl
  | cons a tl0 =>
    rw [List.dropWhile_cons, if_neg (by simp [h a tl0 hr]), ← hr, List.reverse_reverse]

/-- Mapping a pointwise-fixed function is the identity. -/
theorem map_fixed_eq_self {r : List (List Char)}
    (h : ∀ l ∈ r, remove_indent l = l) : r.map remove_indent = r := by
  induction r with
  | nil => rfl
  | cons a tl ih =>
    rw [List.map_cons, h a (by simp), ih (fun l hl => h l (by simp [hl]))]

/-- The normalizer is the identity on a list whose first and last lines
are non-blank, whose lines are all indent-fixed, and whose length is not
one. -/
theorem strip_of_fixed (r : List (List Char))
    (hhead : ∀ a tl0, r = a :: tl0 → line_is_blank a = false)
    (hlast : ∀ a tl0, r.reverse = a :: tl0 → line_is_blank a = false)
    (hfix : ∀ l ∈ r, remove_indent l = l)
    (hlen : r.length ≠ 1) : strip_for_commit_message r = r := by
  match hre : r with
  | [] => rfl
  | a :: tl =>
    rw [← hre] at hhead hlast hfix hlen ⊢
    have hne : r.isEmpty = false := by
      rw [hre]
      rfl
    unfold DebianChangelog.strip_for_commit_message
    rw [hne]
    simp only [Bool.false_eq_true, if_false]
    rw [drop_trailing_eq_self hlast, drop_leading_eq_self hhead, map_fixed_eq_self hfix,
      if_neg (by simpa using hlen)]

/-- The normalizer is the identity on a singleton whose line is nonempty
and fixed by the bullet-dropping map. -/
theorem strip_singleton (b : List Char) (hne : b ≠ [])
    (hfix : drop_bullet b = b) : strip_for_commit_message [b] = [b] := by
  obtain ⟨hts, hnb⟩ := trim_fix_of_drop_bullet_fix hne hfix
  obtain ⟨c, tl, hb, hcws⟩ := head_not_ws_of_trim_self hts hne
  have hblank : line_is_blank b = false := by
    rw [hb]
    exact line_is_blank_cons_false tl hcws
  have hri : remove_indent b = b := by
    rw [hb]
    exact remove_indent_of_head_not_ws tl hcws
  unfold DebianChangelog.strip_for_commit_message
  rw [show ([b] : List (List Char)).isEmpty = false from rfl]
  simp only [Bool.false_eq_true, if_false]
  have h1 : drop_trailing_blank [b] = [b] := by
    unfold DebianChangelog.drop_trailing_blank
    simp [hblank]
  have h2 : drop_leading_blank [b] = [b] := by
    unfold DebianChangelog.drop_leading_blank
    simp [hblank]
  rw [h1, h2, List.map_cons, List.map_nil, hri, List.map_cons, List.map_nil, hfix]
  rfl

/-- Claim C6 as amended: the commit-message normalizer is idempotent on
every input whose normalized form, when it is a single line, is nonempty
and not further bullet-strippable; a second application strips again
exactly when the lone normalized line became empty or still starts with a
bullet. -/
theorem c6_amended_strip_idempotent (xs : List (List Char))
    (H : ∀ b, strip_for_commit_message xs = [b] → b ≠ [] ∧ drop_bullet b = b) :
    strip_for_commit_message (strip_for_commit_message xs) = strip_for_commit_message xs := by
  by_cases he : xs.isEmpty = true
  · have hx : xs = [] := List.isEmpty_iff.mp he
    subst hx
    rfl
  · have hne : xs.isEmpty = false := by simpa using he
    by_cases hb :
        (((drop_leading_blank (drop_trailing_blank xs)).map remove_indent).map
          drop_bullet).length = 1
    · have hr : strip_for_commit_message xs
          = ((drop_leading_blank (drop_trailing_blank xs)).map remove_indent).map drop_bullet := by
        unfold DebianChangelog.strip_for_commit_message
        rw [hne]
        simp only [Bool.false_eq_true, if_false]
        rw [if_pos hb]
      obtain ⟨b, hb1⟩ := List.length_eq_one.mp hb
      have hsx : strip_for_commit_message xs = [b] := by rw [hr, hb1]
      obtain ⟨hbne, hbfix⟩ := H b hsx
      rw [hsx]
      exact strip_singleton b hbne hbfix
    · have hr : strip_for_commit_message xs
          = (drop_leading_blank (drop_trailing_blank xs)).map remove_indent := by
        unfold DebianChangelog.strip_for_commit_message
        rw [hne]
        simp only [Bool.false_eq_true, if_false]
        rw [if_neg hb]
      rw [hr]
      refine strip_of_fixed _ ?_ ?_ ?_ ?_
      · intro a tl0 hcons
        cases hc1 : drop_leading_blank (drop_trailing_blank xs) with
        | nil =>
          rw [hc1] at hcons
          cases hcons
        | cons a0 tl' =>
          rw [hc1, List.map_cons] at hcons
          injection hcons with ha _
          have hb0 : line_is_blank a0 = false := by
            have : (drop_trailing_blank xs).dropWhile line_is_blank = a0 :: tl' := hc1
            exact dropWhile_head_false this
          rw [← ha, blank_remove_indent]
          exact hb0
      · intro a tl0 hcons
        rw [← List.map_reverse] at hcons
        cases hc1r : (drop_leading_blank (drop_trailing_blank xs)).reverse with
        | nil =>
          rw [hc1r] at hcons
          cases hcons
        | cons a0 tl' =>
          rw [hc1r, List.map_cons] at hcons
          injection hcons with ha _
          have hsplit : (drop_trailing_blank xs).takeWhile line_is_blank
              ++ drop_leading_blank (drop_trailing_blank xs) = drop_trailing_blank xs :=
            List.takeWhile_append_dropWhile _ _
          have hr0rev : (drop_trailing_blank xs).reverse
              = a0 :: (tl' ++ ((drop_trailing_blank xs).takeWhile line_is_blank).reverse) := by
            conv_lhs => rw [← hsplit]
            rw [List.reverse_append, hc1r]
            rfl
          have hr0 : (drop_trailing_blank xs).reverse
              = xs.reverse.dropWhile line_is_blank := by
            unfold DebianChangelog.drop_trailing_blank
            rw [List.reverse_reverse]
          have hb0 : line_is_blank a0 = false := by
            have hx : xs.reverse.dropWhile line_is_blank
                = a0 :: (tl' ++ ((drop_trailing_blank xs).takeWhile line_is_blank).reverse) := by
              rw [← hr0, hr0rev]
            exact dropWhile_head_false hx
          rw [← ha, blank_remove_indent]
          exact hb0
      · intro l hl
        obtain ⟨l0, hl0, hle⟩ := List.mem_map.mp hl
        rw [← hle]
        exact remove_indent_idem l0
      · simpa using hb

/-- Claim C6 counterexample: on the single line `* ` the normalizer
yields `[""]` (bullet dropped, then trimmed to empty), and a second
application drops the now-blank line, so the normalizer is not
idempotent as claimed. -/
theorem c6_counterexample_star_space :
    strip_for_commit_message (strip_for_commit_message [['*', ' ']])
      ≠ strip_for_commit_message [['*', ' ']] := by
  decide

/-- Witness for C6: idempotence at a plain one-line input. -/
theorem c6_amended_strip_idempotent_witness :
    strip_for_commit_message (strip_for_commit_message [['a']])
      = strip_for_commit_message [['a']] :=
  c6_amended_strip_idempotent [['a']] (by
    intro b h
    rw [show strip_for_commit_message [['a']] = [['a']] from by decide] at h
    injection h with h1 _
    subst h1
    decide)

end DebianChangelog
